import Mathlib

/-!
Verification of the nb-sim biophysical neuron simulation core.

This file gives a shallow embedding, over the real numbers, of the
integration engine found in the repository (ion-channel gating, reversal
potentials, membrane currents, segment voltage integration, junction
coupling, synaptic transmitter gating, and channel serialization), and
proves or refutes a fixed list of specification claims about it.

Scalar values that the source represents as f32 are modelled as real
numbers; machine floating point rounding is outside the scope of this
development.  Each definition mirrors one function of the source, keeping
the source names.
-/

noncomputable section

namespace NbSim

/-- Constant from constants.rs: the ideal gas constant R. -/
def GAS_CONSTANT : ℝ := 8.314

/-- Constant from constants.rs: one over the Faraday constant. -/
def INVERSE_FARADAY : ℝ := 1 / 96485.3

/-- The Faraday constant itself, used to state the Nernst formula the way
the specification writes it (R T over z F). -/
def FARADAY : ℝ := 96485.3

/-- Ion concentrations of a solution, in moles per liter
(solution.rs, struct Solution). -/
structure Solution where
  na_concentration : ℝ
  k_concentration : ℝ
  cl_concentration : ℝ
  ca_concentration : ℝ

/-- Steady-state activation curve parameters (channel.rs, struct Magnitude). -/
structure Magnitude where
  v_at_half_max : ℝ
  slope : ℝ

/-- Logistic steady state curve of a gate (channel.rs, Magnitude::steady_state):
one over (1 + exp((v_half - v) / slope)). -/
def Magnitude.steady_state (m : Magnitude) (v : ℝ) : ℝ :=
  1 / (1 + Real.exp ((m.v_at_half_max - v) / m.slope))

/-- The three time-constant laws of a gate (channel.rs, enum TimeConstant). -/
inductive TimeConstant where
  | Instantaneous : TimeConstant
  | Sigmoid (v_at_max_tau c_base c_amp sigma : ℝ) : TimeConstant
  | LinearExp (coef v_offset inner_coef : ℝ) : TimeConstant

/-- Voltage-dependent relaxation time constant (channel.rs, TimeConstant::tau).
Returns none exactly for the Instantaneous law. -/
def TimeConstant.tau : TimeConstant → ℝ → Option ℝ
  | .Sigmoid v_at_max_tau c_base c_amp sigma, v =>
      some (c_base + c_amp * Real.exp (-1 * (v_at_max_tau - v) ^ 2 / sigma ^ 2))
  | .Instantaneous, _ => none
  | .LinearExp coef v_offset inner_coef, v =>
      some (coef * Real.exp ((v_offset - v) * inner_coef) * 0.001)

/-- Immutable gate parameters (channel.rs, struct Gating). -/
structure Gating where
  gates : ℕ
  steady_state_magnitude : Magnitude
  time_constant : TimeConstant

/-- Mutable gate state (channel.rs, struct GateState). -/
structure GateState where
  magnitude : ℝ
  parameters : Gating

/-- One tick of gate relaxation (channel.rs, GateState::step).  With a finite
tau the magnitude moves by (m_inf - m) / tau * dt; with no tau (the
Instantaneous law) the magnitude is assigned m_inf directly. -/
def GateState.step (gs : GateState) (membrane_potential dt : ℝ) : GateState :=
  let v_inf := gs.parameters.steady_state_magnitude.steady_state membrane_potential
  match gs.parameters.time_constant.tau membrane_potential with
  | none => { gs with magnitude := v_inf }
  | some tau => { gs with magnitude := gs.magnitude + (v_inf - gs.magnitude) / tau * dt }

/-- Relative ion permeabilities of a channel (channel.rs, struct IonSelectivity). -/
structure IonSelectivity where
  na : ℝ
  k : ℝ
  ca : ℝ
  cl : ℝ

/-- A channel: optional activation and inactivation gates plus ion
selectivity (channel.rs, struct Channel). -/
structure Channel where
  activation : Option GateState
  inactivation : Option GateState
  ion_selectivity : IonSelectivity

/-- One tick of a channel: step both gates at the given membrane potential
(channel.rs, Channel::step). -/
def Channel.step (c : Channel) (membrane_potential dt : ℝ) : Channel :=
  { c with
    activation := c.activation.map (fun g => g.step membrane_potential dt)
    inactivation := c.inactivation.map (fun g => g.step membrane_potential dt) }

/-- The conductance coefficient of a channel: the product over both gates of
magnitude to the power of the gate count, an absent gate contributing 1
(channel.rs, Channel::conductance_coefficient). -/
def Channel.conductance_coefficient (c : Channel) : ℝ :=
  ((c.activation.map fun g => g.magnitude ^ g.parameters.gates).getD 1) *
  ((c.inactivation.map fun g => g.magnitude ^ g.parameters.gates).getD 1)

/-- Nernst reversal potential for one ion species, in millivolts
(channel.rs, fn reversal_potential). -/
def reversal_potential (internal_concentration external_concentration temperature : ℝ)
    (valence : ℤ) : ℝ :=
  GAS_CONSTANT * INVERSE_FARADAY * temperature / (valence : ℝ) *
    Real.log (external_concentration / internal_concentration) * 1000

/-- Potassium reversal potential, valence 1 (channel.rs, fn k_reversal). -/
def k_reversal (internal_solution external_solution : Solution) (temperature : ℝ) : ℝ :=
  reversal_potential internal_solution.k_concentration external_solution.k_concentration
    temperature 1

/-- Sodium reversal potential, valence 1 (channel.rs, fn na_reversal). -/
def na_reversal (internal_solution external_solution : Solution) (temperature : ℝ) : ℝ :=
  reversal_potential internal_solution.na_concentration external_solution.na_concentration
    temperature 1

/-- Calcium reversal potential, valence 2 (channel.rs, fn ca_reversal). -/
def ca_reversal (internal_solution external_solution : Solution) (temperature : ℝ) : ℝ :=
  reversal_potential internal_solution.ca_concentration external_solution.ca_concentration
    temperature 2

/-- Chloride reversal potential, valence -1 (channel.rs, fn cl_reversal). -/
def cl_reversal (internal_solution external_solution : Solution) (temperature : ℝ) : ℝ :=
  reversal_potential internal_solution.cl_concentration external_solution.cl_concentration
    temperature (-1)

/-- A channel with its peak conductance (membrane.rs, struct MembraneChannel). -/
structure MembraneChannel where
  channel : Channel
  siemens_per_square_cm : ℝ

/-- Current density contributed by one membrane channel
(membrane.rs, MembraneChannel::channel_current_per_cm): the sum over the
four ions of selectivity times conductance coefficient times the driving
force in volts, scaled by the peak conductance. -/
def MembraneChannel.channel_current_per_cm (mc : MembraneChannel)
    (k_rev na_rev cl_rev ca_rev membrane_potential : ℝ) : ℝ :=
  let gating_coefficient := mc.channel.conductance_coefficient
  let k_current :=
    mc.channel.ion_selectivity.k * gating_coefficient * (membrane_potential - k_rev) * 0.001
  let na_current :=
    mc.channel.ion_selectivity.na * gating_coefficient * (membrane_potential - na_rev) * 0.001
  let ca_current :=
    mc.channel.ion_selectivity.ca * gating_coefficient * (membrane_potential - ca_rev) * 0.001
  let cl_current :=
    mc.channel.ion_selectivity.cl * gating_coefficient * (membrane_potential - cl_rev) * 0.001
  (k_current + na_current + ca_current + cl_current) * mc.siemens_per_square_cm

/-- A membrane: an ordered list of channels with peak conductances, plus a
capacitance density (membrane.rs, struct Membrane). -/
structure Membrane where
  membrane_channels : List MembraneChannel
  capacitance : ℝ

/-- Total membrane current density: the sum of the channel current densities
(membrane.rs, Membrane::current_per_square_cm). -/
def Membrane.current_per_square_cm (m : Membrane)
    (k_rev na_rev cl_rev ca_rev membrane_potential : ℝ) : ℝ :=
  (m.membrane_channels.map fun mc =>
    mc.channel_current_per_cm k_rev na_rev cl_rev ca_rev membrane_potential).sum

/-- Cylinder shape of a segment (segment.rs, struct Geometry). -/
structure Geometry where
  diameter : ℝ
  length : ℝ

/-- A neuron segment (segment.rs, struct Segment). -/
structure Segment where
  intracellular_solution : Solution
  geometry : Geometry
  membrane : Membrane
  membrane_potential : ℝ
  input_current : ℝ
  synaptic_current : ℝ

instance : Inhabited Segment :=
  ⟨⟨⟨0, 0, 0, 0⟩, ⟨0, 0⟩, ⟨[], 0⟩, 0, 0, 0⟩⟩

/-- Lateral surface area of the cylindrical segment
(segment.rs, Segment::surface_area). -/
def Segment.surface_area (s : Segment) : ℝ :=
  s.geometry.diameter * Real.pi * s.geometry.length

/-- Time derivative of the membrane voltage (segment.rs, Segment::dv_dt):
the negated membrane current density times area, minus synaptic current,
plus injected current density times area, divided by the total capacitance. -/
def Segment.dv_dt (s : Segment) (temperature : ℝ) (extracellular_solution : Solution) : ℝ :=
  let surface_area := s.surface_area
  let current :=
    -1 * s.membrane.current_per_square_cm
        (k_reversal s.intracellular_solution extracellular_solution temperature)
        (na_reversal s.intracellular_solution extracellular_solution temperature)
        (cl_reversal s.intracellular_solution extracellular_solution temperature)
        (ca_reversal s.intracellular_solution extracellular_solution temperature)
        s.membrane_potential * s.surface_area
      - s.synaptic_current * 1e-6
      + s.input_current * 1e-6 * surface_area
  let capacitance := s.membrane.capacitance * surface_area
  current / capacitance

/-- Total capacitance of the segment (segment.rs, Segment::capacitance). -/
def Segment.capacitance (s : Segment) : ℝ :=
  s.membrane.capacitance * s.surface_area

/-- One tick of a segment (segment.rs, Segment::step): first the voltage is
moved by dv_dt times 1000 times dt, then every channel is stepped at the
new voltage. -/
def Segment.step (s : Segment) (temperature : ℝ) (extracellular_solution : Solution)
    (dt : ℝ) : Segment :=
  let new_membrane_potential :=
    s.membrane_potential + s.dv_dt temperature extracellular_solution * 1000 * dt
  { s with
    membrane_potential := new_membrane_potential
    membrane :=
      { s.membrane with
        membrane_channels := s.membrane.membrane_channels.map fun mc =>
          { mc with channel := mc.channel.step new_membrane_potential dt } } }

/-- A neuron: owned segments plus junctions given as index pairs with a pore
diameter (mod.rs, struct Neuron). -/
structure Neuron where
  segments : List Segment
  junctions : List (ℕ × ℕ × ℝ)

/-- One iteration of the junction loop of Neuron::step (mod.rs, lines 38-64):
read both endpoint voltages and capacitances, compute the coupling current,
then write segment m and then segment n in place.  The conductance constant
CONDUCTANCE_PER_SQUARE_CM is not present in the sources at hand, so it is
passed as the parameter conductance_per_square_cm. -/
def Neuron.apply_junction (conductance_per_square_cm dt : ℝ)
    (segments : List Segment) (junction : ℕ × ℕ × ℝ) : List Segment :=
  let m := junction.1
  let n := junction.2.1
  let pore_diameter := junction.2.2
  let voltage_m := (segments.getD m default).membrane_potential
  let capacitance_m := (segments.getD m default).capacitance
  let voltage_n := (segments.getD n default).membrane_potential
  let capacitance_n := (segments.getD n default).capacitance
  let mutual_conductance := pore_diameter * Real.pi * conductance_per_square_cm
  let m_to_n_current := mutual_conductance * (voltage_m - voltage_n) * 1e-3
  let segments1 := segments.set m
    { segments.getD m default with
      membrane_potential :=
        (segments.getD m default).membrane_potential
          - m_to_n_current / capacitance_m * dt }
  segments1.set n
    { segments1.getD n default with
      membrane_potential :=
        (segments1.getD n default).membrane_potential
          + m_to_n_current / capacitance_n * dt }

/-- One tick of a neuron (mod.rs, Neuron::step): step every segment locally,
then run the junction loop sequentially over the junction list.  The source
also collects a snapshot vector of all membrane potentials before stepping,
but that vector is never read again, so it has no counterpart here. -/
def Neuron.step (conductance_per_square_cm : ℝ) (nr : Neuron) (temperature : ℝ)
    (extracellular_solution : Solution) (dt : ℝ) : Neuron :=
  let segments := nr.segments.map fun s => s.step temperature extracellular_solution dt
  { nr with
    segments :=
      nr.junctions.foldl (Neuron.apply_junction conductance_per_square_cm dt) segments }

/-! Synaptic transmitter gating, following src/neuron/synapse.rs
(struct SynapseMembranes and friends).  The channel and current machinery
there is the same as the one embedded above, so it is reused. -/

/-- The two transmitter species (synapse.rs, enum Transmitter). -/
inductive Transmitter where
  | Glutamate : Transmitter
  | Gaba : Transmitter

/-- Live transmitter concentrations in the cleft
(synapse.rs, struct TransmitterConcentrations). -/
structure TransmitterConcentrations where
  glutamate : ℝ
  gaba : ℝ

/-- Transmitter sensitivity of a postsynaptic receptor
(synapse.rs, struct Sensitivity). -/
structure Sensitivity where
  transmitter : Transmitter
  concentration_at_half_max : ℝ
  slope : ℝ

/-- Concentration-dependent gating coefficient of a receptor
(synapse.rs, Sensitivity::gating_coefficient): a logistic sigmoid in the
concentration of the transmitter species the receptor is sensitive to. -/
def Sensitivity.gating_coefficient (s : Sensitivity)
    (transmitter_concentrations : TransmitterConcentrations) : ℝ :=
  let mk_coefficient := fun concentration : ℝ =>
    1 / (1 + Real.exp (-1 * (concentration - s.concentration_at_half_max) * s.slope))
  match s.transmitter with
  | .Glutamate => mk_coefficient transmitter_concentrations.glutamate
  | .Gaba => mk_coefficient transmitter_concentrations.gaba

/-- A postsynaptic receptor: a membrane channel plus a transmitter
sensitivity (synapse.rs, struct Receptor). -/
structure Receptor where
  membrane_channel : MembraneChannel
  neurotransmitter_sensitivity : Sensitivity

/-- The synapse state (synapse.rs, struct SynapseMembranes). -/
structure SynapseMembranes where
  cleft_solution : Solution
  transmitter_concentrations : TransmitterConcentrations
  postsynaptic_receptors : List Receptor
  surface_area : ℝ

/-- Synaptic current into the postsynaptic segment
(synapse.rs, SynapseMembranes::current): for each receptor, the channel
current density (with reversal potentials taken between the postsynaptic
solution and the cleft solution) times the transmitter gating coefficient,
summed and scaled by the contact surface area.  The source passes its
cl reversal into the ca parameter slot of channel_current_per_cm and its
ca reversal into the cl slot; the argument order below reproduces that. -/
def SynapseMembranes.current (syn : SynapseMembranes) (temperature : ℝ)
    (postsynaptic_potential : ℝ) (postsynaptic_solution : Solution) : ℝ :=
  (syn.postsynaptic_receptors.map fun receptor =>
    let channel_current_per_cm :=
      receptor.membrane_channel.channel_current_per_cm
        (k_reversal postsynaptic_solution syn.cleft_solution temperature)
        (na_reversal postsynaptic_solution syn.cleft_solution temperature)
        (ca_reversal postsynaptic_solution syn.cleft_solution temperature)
        (cl_reversal postsynaptic_solution syn.cleft_solution temperature)
        postsynaptic_potential
    let gating_coefficient :=
      receptor.neurotransmitter_sensitivity.gating_coefficient
        syn.transmitter_concentrations
    channel_current_per_cm * gating_coefficient).sum
  * syn.surface_area

/-! Serialization of channels, following serialize.rs and the
Channel::serialize and GateState::serialize functions of channel.rs. -/

namespace serialize

/-- Serialized steady-state curve (serialize.rs, struct Magnitude). -/
structure Magnitude where
  slope : ℝ
  v_at_half_max_mv : ℝ

/-- Serialized time-constant law (serialize.rs, enum TimeConstant). -/
inductive TimeConstant where
  | Instantaneous : TimeConstant
  | Sigmoid (v_at_max_tau c_base c_amp sigma : ℝ) : TimeConstant
  | LinearExp (coef v_offset_mv inner_coef : ℝ) : TimeConstant

/-- Serialized gate parameters (serialize.rs, struct GatingParameters). -/
structure GatingParameters where
  gates : ℕ
  steady_state_magnitude : Magnitude
  time_constant : TimeConstant

/-- Serialized ion selectivity (serialize.rs, struct IonSelectivity). -/
structure IonSelectivity where
  na : ℝ
  k : ℝ
  ca : ℝ
  cl : ℝ

/-- Serialized channel (serialize.rs, struct Channel): each optional gate is
a parameter record paired with the gate magnitude. -/
structure Channel where
  activation : Option (GatingParameters × ℝ)
  inactivation : Option (GatingParameters × ℝ)
  ion_selectivity : IonSelectivity

end serialize

/-- Serialization of one gate state (channel.rs, GateState::serialize):
the parameters converted to their serialized form, paired with the
current magnitude. -/
def GateState.serialize (gs : GateState) : serialize.GatingParameters × ℝ :=
  (⟨gs.parameters.gates,
    ⟨gs.parameters.steady_state_magnitude.slope,
     gs.parameters.steady_state_magnitude.v_at_half_max⟩,
    match gs.parameters.time_constant with
    | .Instantaneous => serialize.TimeConstant.Instantaneous
    | .Sigmoid v_at_max_tau c_base c_amp sigma =>
        serialize.TimeConstant.Sigmoid v_at_max_tau c_base c_amp sigma
    | .LinearExp coef v_offset inner_coef =>
        serialize.TimeConstant.LinearExp coef v_offset inner_coef⟩,
   gs.magnitude)

/-- Serialization of an ion selectivity (channel.rs, IonSelectivity::serialize). -/
def IonSelectivity.serialize (s : IonSelectivity) : serialize.IonSelectivity :=
  ⟨s.na, s.k, s.ca, s.cl⟩

/-- Serialization of a channel (channel.rs, Channel::serialize).  Note that
the source populates the inactivation field from self.activation. -/
def Channel.serialize (c : Channel) : serialize.Channel :=
  { activation := c.activation.map fun a => a.serialize
    inactivation := c.activation.map fun ia => ia.serialize
    ion_selectivity := c.ion_selectivity.serialize }

/-- Concentration of a given transmitter species inside a
TransmitterConcentrations record; used to state claims about the
transmitter gating coefficient. -/
def TransmitterConcentrations.concentration_of
    (tc : TransmitterConcentrations) : Transmitter → ℝ
  | .Glutamate => tc.glutamate
  | .Gaba => tc.gaba

theorem Sensitivity.gating_coefficient_eq (s : Sensitivity)
    (tc : TransmitterConcentrations) :
    s.gating_coefficient tc =
      1 / (1 + Real.exp (-(tc.concentration_of s.transmitter
            - s.concentration_at_half_max) * s.slope)) := by
  cases h : s.transmitter <;>
    simp only [Sensitivity.gating_coefficient, TransmitterConcentrations.concentration_of, h] <;>
    ring_nf

/-- C2: one Segment::step updates the voltage by V plus 1000 times dV/dt
times dt, where dV/dt is the net current (the membrane current density at
the pre-step voltage, negated and scaled by the surface area A, minus the
synaptic current, plus the injected current density times A) divided by the
capacitance density times A. -/
theorem C2_segment_step_voltage
    (s : Segment) (temperature dt : ℝ) (ecs : Solution) :
    (s.step temperature ecs dt).membrane_potential =
      s.membrane_potential +
        1000 *
          ((-(s.membrane.current_per_square_cm
                (k_reversal s.intracellular_solution ecs temperature)
                (na_reversal s.intracellular_solution ecs temperature)
                (cl_reversal s.intracellular_solution ecs temperature)
                (ca_reversal s.intracellular_solution ecs temperature)
                s.membrane_potential) * s.surface_area
            - s.synaptic_current * 1e-6
            + s.input_current * 1e-6 * s.surface_area) /
            (s.membrane.capacitance * s.surface_area)) * dt := by
  simp only [Segment.step, Segment.dv_dt]
  ring

/-- C3: within one Segment::step the voltage is updated first and every
channel is then stepped at the already-updated voltage: the post-step
channel list is the pre-step list with each channel stepped at the
post-step membrane potential. -/
theorem C3_gates_stepped_at_new_voltage
    (s : Segment) (temperature dt : ℝ) (ecs : Solution) :
    (s.step temperature ecs dt).membrane.membrane_channels =
      s.membrane.membrane_channels.map fun mc =>
        { mc with
          channel := mc.channel.step (s.step temperature ecs dt).membrane_potential dt } := by
  simp only [Segment.step]

/-- C5: a gate whose time-constant law is Instantaneous has its magnitude
assigned the steady state value 1 / (1 + exp((V_half - V) / slope)) by one
gate step, for any previous magnitude and any dt. -/
theorem C5_instantaneous_gate_assigns_steady_state
    (gs : GateState) (v dt : ℝ)
    (h : gs.parameters.time_constant = TimeConstant.Instantaneous) :
    (gs.step v dt).magnitude =
      1 / (1 + Real.exp ((gs.parameters.steady_state_magnitude.v_at_half_max - v) /
            gs.parameters.steady_state_magnitude.slope)) := by
  simp [GateState.step, h, TimeConstant.tau, Magnitude.steady_state]

/-- Concrete instantaneous gate used to witness C5. -/
def gateC5 : GateState :=
  ⟨0.3, ⟨1, ⟨0, 1⟩, TimeConstant.Instantaneous⟩⟩

/-- Witness for C5 at a concrete instantaneous gate. -/
theorem C5_instantaneous_gate_assigns_steady_state_witness :
    gateC5.parameters.time_constant = TimeConstant.Instantaneous ∧
    (gateC5.step 0 5).magnitude =
      1 / (1 + Real.exp ((gateC5.parameters.steady_state_magnitude.v_at_half_max - 0) /
            gateC5.parameters.steady_state_magnitude.slope)) :=
  ⟨rfl, C5_instantaneous_gate_assigns_steady_state gateC5 0 5 rfl⟩

/-- C7: the synaptic current multiplies each postsynaptic receptor's channel
current (built from the gate-derived conductance coefficient) by the
transmitter gating coefficient 1 / (1 + exp(-(C - C_half) * slope)), where C
is the cleft concentration of the transmitter species the receptor is
sensitive to. -/
theorem C7_receptor_transmitter_gating
    (syn : SynapseMembranes) (temperature v_post : ℝ) (sol_post : Solution) :
    syn.current temperature v_post sol_post =
      (syn.postsynaptic_receptors.map fun receptor =>
        receptor.membrane_channel.channel_current_per_cm
          (k_reversal sol_post syn.cleft_solution temperature)
          (na_reversal sol_post syn.cleft_solution temperature)
          (ca_reversal sol_post syn.cleft_solution temperature)
          (cl_reversal sol_post syn.cleft_solution temperature)
          v_post *
        (1 / (1 + Real.exp
          (-(syn.transmitter_concentrations.concentration_of
                receptor.neurotransmitter_sensitivity.transmitter
              - receptor.neurotransmitter_sensitivity.concentration_at_half_max) *
            receptor.neurotransmitter_sensitivity.slope)))).sum *
      syn.surface_area := by
  simp only [SynapseMembranes.current, Sensitivity.gating_coefficient_eq]

/-- C10: Channel::serialize computes the serialized inactivation field from
the activation gate: it equals the serialized activation gate (hence is
present exactly when the activation gate is), and two channels agreeing on
activation and ion selectivity serialize identically however their
inactivation gates differ. -/
theorem C10_serialize_inactivation_from_activation (c c' : Channel) :
    c.serialize.inactivation = c.activation.map GateState.serialize ∧
    (c.serialize.inactivation.isSome ↔ c.activation.isSome) ∧
    (c.activation = c'.activation → c.ion_selectivity = c'.ion_selectivity →
      c.serialize = c'.serialize) := by
  refine ⟨rfl, ?_, fun h1 h2 => ?_⟩
  · simp [Channel.serialize]
  · simp [Channel.serialize, h1, h2]

/-- Concrete gate states and channels used to witness C10: the two channels
differ only in their inactivation gate. -/
def gateC10a : GateState :=
  ⟨0.25, ⟨3, ⟨-40, 15⟩, TimeConstant.Instantaneous⟩⟩

def gateC10b : GateState :=
  ⟨0.75, ⟨1, ⟨-62, -7⟩, TimeConstant.LinearExp 3 (-40) (1 / 33)⟩⟩

def channelC10a : Channel :=
  ⟨some gateC10a, some gateC10a, ⟨1, 0, 0, 0⟩⟩

def channelC10b : Channel :=
  ⟨some gateC10a, some gateC10b, ⟨1, 0, 0, 0⟩⟩

/-- Witness for C10: two concrete channels differing only in inactivation
serialize to the same record, whose inactivation field is the serialized
activation gate. -/
theorem C10_serialize_inactivation_from_activation_witness :
    channelC10a.serialize.inactivation = channelC10a.activation.map GateState.serialize ∧
    channelC10a.serialize = channelC10b.serialize :=
  ⟨(C10_serialize_inactivation_from_activation channelC10a channelC10a).1,
   (C10_serialize_inactivation_from_activation channelC10a channelC10b).2.2 rfl rfl⟩

/-- C4: for positive concentrations, each per-ion reversal potential equals
(R T) / (z F) times the natural log of C_out over C_in, in millivolts, with
valence 1 for Na and K, 2 for Ca and -1 for Cl. -/
theorem C4_nernst_reversal_potentials
    (i e : Solution) (T : ℝ)
    (hki : 0 < i.k_concentration) (hke : 0 < e.k_concentration)
    (hni : 0 < i.na_concentration) (hne : 0 < e.na_concentration)
    (hci : 0 < i.ca_concentration) (hce : 0 < e.ca_concentration)
    (hli : 0 < i.cl_concentration) (hle : 0 < e.cl_concentration) :
    k_reversal i e T =
      GAS_CONSTANT * T / (1 * FARADAY) *
        Real.log (e.k_concentration / i.k_concentration) * 1000 ∧
    na_reversal i e T =
      GAS_CONSTANT * T / (1 * FARADAY) *
        Real.log (e.na_concentration / i.na_concentration) * 1000 ∧
    ca_reversal i e T =
      GAS_CONSTANT * T / (2 * FARADAY) *
        Real.log (e.ca_concentration / i.ca_concentration) * 1000 ∧
    cl_reversal i e T =
      GAS_CONSTANT * T / ((-1) * FARADAY) *
        Real.log (e.cl_concentration / i.cl_concentration) * 1000 := by
  refine ⟨?_, ?_, ?_, ?_⟩ <;>
    simp only [k_reversal, na_reversal, ca_reversal, cl_reversal, reversal_potential,
      INVERSE_FARADAY, FARADAY] <;>
    push_cast <;>
    ring

/-- Concrete solutions used to witness C4. -/
def solutionC4i : Solution := ⟨5e-3, 140e-3, 4e-3, 1e-7⟩

def solutionC4e : Solution := ⟨145e-3, 5e-3, 110e-3, 2.5e-3⟩

/-- Witness for C4 at concrete positive concentrations and body temperature. -/
theorem C4_nernst_reversal_potentials_witness :
    (0 : ℝ) < solutionC4i.k_concentration ∧
    k_reversal solutionC4i solutionC4e 310 =
      GAS_CONSTANT * 310 / (1 * FARADAY) *
        Real.log (solutionC4e.k_concentration / solutionC4i.k_concentration) * 1000 ∧
    ca_reversal solutionC4i solutionC4e 310 =
      GAS_CONSTANT * 310 / (2 * FARADAY) *
        Real.log (solutionC4e.ca_concentration / solutionC4i.ca_concentration) * 1000 ∧
    cl_reversal solutionC4i solutionC4e 310 =
      GAS_CONSTANT * 310 / ((-1) * FARADAY) *
        Real.log (solutionC4e.cl_concentration / solutionC4i.cl_concentration) * 1000 := by
  have h := C4_nernst_reversal_potentials solutionC4i solutionC4e 310
    (by norm_num [solutionC4i]) (by norm_num [solutionC4e])
    (by norm_num [solutionC4i]) (by norm_num [solutionC4e])
    (by norm_num [solutionC4i]) (by norm_num [solutionC4e])
    (by norm_num [solutionC4i]) (by norm_num [solutionC4e])
  exact ⟨by norm_num [solutionC4i], h.1, h.2.2.1, h.2.2.2⟩

theorem Segment.capacitance_step (s : Segment) (temperature dt : ℝ) (ecs : Solution) :
    (s.step temperature ecs dt).capacitance = s.capacitance := rfl

/-- C6: for a neuron of exactly two segments joined by one junction, the
junction coupling phase conserves charge: with nonzero capacitances, the
capacitance-weighted voltage changes over the coupling phase (from the
post-segment-step voltages to the post-Neuron::step voltages) sum to zero
exactly, in real arithmetic. -/
theorem C6_two_segment_junction_conserves_charge
    (s0 s1 : Segment) (d k temperature dt : ℝ) (ecs : Solution)
    (h0 : s0.capacitance ≠ 0) (h1 : s1.capacitance ≠ 0) :
    s0.capacitance *
        (((Neuron.step k ⟨[s0, s1], [(0, 1, d)]⟩ temperature ecs dt).segments.getD 0
              default).membrane_potential
          - (s0.step temperature ecs dt).membrane_potential) +
      s1.capacitance *
        (((Neuron.step k ⟨[s0, s1], [(0, 1, d)]⟩ temperature ecs dt).segments.getD 1
              default).membrane_potential
          - (s1.step temperature ecs dt).membrane_potential) = 0 := by
  have hc0 : (s0.step temperature ecs dt).capacitance = s0.capacitance := rfl
  have hc1 : (s1.step temperature ecs dt).capacitance = s1.capacitance := rfl
  simp only [Neuron.step, Neuron.apply_junction, List.map_cons, List.map_nil,
    List.foldl_cons, List.foldl_nil, List.getD_cons_zero, List.getD_cons_succ,
    List.set_cons_zero, List.set_cons_succ, List.set_nil, hc0, hc1]
  field_simp
  ring

/-- Concrete channel-free segment used to witness C6; its total capacitance
is pi, which is nonzero. -/
def segmentC6 : Segment := ⟨⟨1, 1, 1, 1⟩, ⟨1, 1⟩, ⟨[], 1⟩, -70, 0, 0⟩

/-- Witness for C6 at two concrete segments of nonzero capacitance. -/
theorem C6_two_segment_junction_conserves_charge_witness :
    segmentC6.capacitance ≠ 0 ∧
    segmentC6.capacitance *
        (((Neuron.step 5 ⟨[segmentC6, segmentC6], [(0, 1, 2)]⟩ 310 ⟨1, 1, 1, 1⟩
              1e-5).segments.getD 0 default).membrane_potential
          - (segmentC6.step 310 ⟨1, 1, 1, 1⟩ 1e-5).membrane_potential) +
      segmentC6.capacitance *
        (((Neuron.step 5 ⟨[segmentC6, segmentC6], [(0, 1, 2)]⟩ 310 ⟨1, 1, 1, 1⟩
              1e-5).segments.getD 1 default).membrane_potential
          - (segmentC6.step 310 ⟨1, 1, 1, 1⟩ 1e-5).membrane_potential) = 0 := by
  have hc : segmentC6.capacitance ≠ 0 := by
    simp [segmentC6, Segment.capacitance, Segment.surface_area, Real.pi_ne_zero]
  exact ⟨hc,
    C6_two_segment_junction_conserves_charge segmentC6 segmentC6 2 5 310 1e-5 ⟨1, 1, 1, 1⟩ hc hc⟩

theorem Magnitude.steady_state_nonneg (m : Magnitude) (v : ℝ) :
    0 ≤ m.steady_state v := by
  have h := Real.exp_pos ((m.v_at_half_max - v) / m.slope)
  unfold Magnitude.steady_state
  positivity

theorem Magnitude.steady_state_le_one (m : Magnitude) (v : ℝ) :
    m.steady_state v ≤ 1 := by
  have h := Real.exp_pos ((m.v_at_half_max - v) / m.slope)
  unfold Magnitude.steady_state
  rw [div_le_one (by linarith)]
  linarith

/-- Concrete gate used to refute C8: a sigmoid time-constant law with a
constant tau of 1 second, stepped with dt = 4 seconds. -/
def gateC8 : GateState := ⟨0, ⟨1, ⟨0, 1⟩, TimeConstant.Sigmoid 0 1 0 1⟩⟩

/-- Counterexample to C8 as stated: a gate with magnitude 0 (inside [0,1]),
stepped once at voltage 0 with dt = 4 > 0, leaves [0,1]: the forward-Euler
relaxation overshoots to magnitude 2. -/
theorem C8_counterexample :
    0 ≤ gateC8.magnitude ∧ gateC8.magnitude ≤ 1 ∧ (0 : ℝ) < 4 ∧
      (gateC8.step 0 4).magnitude = 2 := by
  refine ⟨le_refl 0, zero_le_one, by norm_num, ?_⟩
  simp [GateState.step, gateC8, TimeConstant.tau, Magnitude.steady_state, Real.exp_zero]
  norm_num

/-- C8 amended: a gate magnitude inside [0,1] stays inside [0,1] after one
gate step provided dt is non-negative and, whenever the time-constant law
produces a finite tau at the given voltage, that tau is positive and at
least dt.  (For the Instantaneous law this holds with no condition on dt;
the original claim fails for dt larger than tau, see the counterexample.) -/
theorem C8_gate_magnitude_in_unit_interval
    (gs : GateState) (v dt : ℝ)
    (hm0 : 0 ≤ gs.magnitude) (hm1 : gs.magnitude ≤ 1) (hdt : 0 ≤ dt)
    (htau : ∀ t, gs.parameters.time_constant.tau v = some t → 0 < t ∧ dt ≤ t) :
    0 ≤ (gs.step v dt).magnitude ∧ (gs.step v dt).magnitude ≤ 1 := by
  have hinf0 := Magnitude.steady_state_nonneg gs.parameters.steady_state_magnitude v
  have hinf1 := Magnitude.steady_state_le_one gs.parameters.steady_state_magnitude v
  unfold GateState.step
  cases h : gs.parameters.time_constant.tau v with
  | none => exact ⟨hinf0, hinf1⟩
  | some t =>
      obtain ⟨ht0, htd⟩ := htau t h
      have hr0 : 0 ≤ dt / t := div_nonneg hdt ht0.le
      have hr1 : dt / t ≤ 1 := (div_le_one ht0).mpr htd
      have hrw :
          gs.magnitude +
              (gs.parameters.steady_state_magnitude.steady_state v - gs.magnitude) / t * dt =
            gs.magnitude +
              (gs.parameters.steady_state_magnitude.steady_state v - gs.magnitude) *
                (dt / t) := by
        ring
      simp only [hrw]
      constructor
      · nlinarith [mul_nonneg (sub_nonneg.mpr hr1) hm0, mul_nonneg hr0 hinf0]
      · nlinarith [mul_nonneg (sub_nonneg.mpr hr1) (sub_nonneg.mpr hm1),
          mul_nonneg hr0 (sub_nonneg.mpr hinf1)]

/-- Witness for the amended C8 at the counterexample gate but with
dt = 1/2, below its tau of 1. -/
theorem C8_gate_magnitude_in_unit_interval_witness :
    0 ≤ gateC8.magnitude ∧ gateC8.magnitude ≤ 1 ∧ (0 : ℝ) ≤ 1 / 2 ∧
      0 ≤ (gateC8.step 0 (1 / 2)).magnitude ∧ (gateC8.step 0 (1 / 2)).magnitude ≤ 1 := by
  have htau : ∀ t, gateC8.parameters.time_constant.tau 0 = some t → 0 < t ∧ (1 : ℝ) / 2 ≤ t := by
    intro t ht
    simp [gateC8, TimeConstant.tau] at ht
    rw [← ht]
    norm_num
  have h := C8_gate_magnitude_in_unit_interval gateC8 0 (1 / 2)
    (le_refl 0) zero_le_one (by norm_num) htau
  exact ⟨le_refl 0, zero_le_one, by norm_num, h⟩

/-- The reversal-potential computation as the specification (section 7)
describes it, for comparison with the implementation: a degenerate
concentration (internal or external zero or negative, making the log
argument non-positive) is a domain error, surfaced as none. -/
def reversal_potential_checked (internal_concentration external_concentration
    temperature : ℝ) (valence : ℤ) : Option ℝ :=
  if internal_concentration ≤ 0 ∨ external_concentration ≤ 0 then none
  else some (reversal_potential internal_concentration external_concentration
    temperature valence)

/-- C9 amended: no domain error is surfaced.  The implementation has no
error channel: for every input, including degenerate concentrations, it
unconditionally returns the plain Nernst formula value; the degenerate
logarithm argument is silently propagated. -/
theorem C9_no_domain_error_surfaced
    (internal_concentration external_concentration temperature : ℝ) (valence : ℤ) :
    reversal_potential internal_concentration external_concentration temperature valence =
      GAS_CONSTANT * INVERSE_FARADAY * temperature / (valence : ℝ) *
        Real.log (external_concentration / internal_concentration) * 1000 := rfl

/-- Solution with a zero potassium concentration, a degenerate input for the
potassium Nernst computation. -/
def solutionC9 : Solution := ⟨5e-3, 0, 4e-3, 1e-7⟩

/-- Counterexample to C9 as stated: at an internal potassium concentration
of zero the checked (specification section 7) variant reports a domain
error, but the implementation surfaces nothing: it returns the silently
propagated formula applied to the degenerate quotient. -/
theorem C9_counterexample :
    reversal_potential_checked solutionC9.k_concentration 5e-3 310 1 = none ∧
    k_reversal solutionC9 ⟨145e-3, 5e-3, 110e-3, 2.5e-3⟩ 310 =
      GAS_CONSTANT * INVERSE_FARADAY * 310 / ((1 : ℤ) : ℝ) *
        Real.log (5e-3 / solutionC9.k_concentration) * 1000 := by
  constructor
  · simp [reversal_potential_checked, solutionC9]
  · rfl

/-- Channel-free segment used to exhibit the junction-order dependence of
Neuron::step; the only state that one step can change is its voltage, and
with no channels, no synaptic and no input current its local integration
leaves the voltage unchanged. -/
def segmentC1 (v : ℝ) : Segment := ⟨⟨0, 0, 0, 0⟩, ⟨1, 1⟩, ⟨[], 1e-3⟩, v, 0, 0⟩

theorem segmentC1_step (v temperature dt : ℝ) (ecs : Solution) :
    (segmentC1 v).step temperature ecs dt = segmentC1 v := by
  simp [segmentC1, Segment.step, Segment.dv_dt, Segment.surface_area,
    Membrane.current_per_square_cm]

/-- Three channel-free segments at voltages 1, 0, 0 with two junctions that
share segment 0 as an endpoint. -/
def neuronC1A : Neuron :=
  ⟨[segmentC1 1, segmentC1 0, segmentC1 0], [(0, 1, 1), (0, 2, 1)]⟩

/-- The same neuron with the junction list permuted. -/
def neuronC1B : Neuron :=
  ⟨[segmentC1 1, segmentC1 0, segmentC1 0], [(0, 2, 1), (0, 1, 1)]⟩

theorem neuronC1A_voltage (k temperature : ℝ) (ecs : Solution) :
    ((Neuron.step k neuronC1A temperature ecs 1).segments.getD 1
        default).membrane_potential = k := by
  simp only [neuronC1A, Neuron.step, List.map_cons, List.map_nil, segmentC1_step,
    List.foldl_cons, List.foldl_nil, Neuron.apply_junction]
  simp only [Segment.capacitance, Segment.surface_area, segmentC1,
    List.getD_cons_zero, List.getD_cons_succ, List.set_cons_zero,
    List.set_cons_succ, List.set_nil]
  field_simp
  ring

theorem neuronC1B_voltage (k temperature : ℝ) (ecs : Solution) :
    ((Neuron.step k neuronC1B temperature ecs 1).segments.getD 1
        default).membrane_potential = k * (1 - k) := by
  simp only [neuronC1B, Neuron.step, List.map_cons, List.map_nil, segmentC1_step,
    List.foldl_cons, List.foldl_nil, Neuron.apply_junction]
  simp only [Segment.capacitance, Segment.surface_area, segmentC1,
    List.getD_cons_zero, List.getD_cons_succ, List.set_cons_zero,
    List.set_cons_succ, List.set_nil]
  field_simp
  ring

/-- C1 is violated by the code: the junction loop of Neuron::step reads and
writes the segment voltages in place (the snapshot vector it collects is
never used), so when two junctions share endpoint segment 0, permuting the
junction list changes the post-step voltage of segment 1 - for every
nonzero conductance constant, any temperature and any extracellular
solution. -/
theorem C1_junction_order_dependence (k temperature : ℝ) (ecs : Solution)
    (hk : k ≠ 0) :
    ((Neuron.step k neuronC1A temperature ecs 1).segments.getD 1
        default).membrane_potential ≠
      ((Neuron.step k neuronC1B temperature ecs 1).segments.getD 1
        default).membrane_potential := by
  rw [neuronC1A_voltage, neuronC1B_voltage]
  intro h
  have hk2 : k ^ 2 = 0 := by nlinarith [h]
  exact hk (sq_eq_zero_iff.mp hk2)

/-- Witness for the junction-order dependence at conductance constant 1. -/
theorem C1_junction_order_dependence_witness :
    (1 : ℝ) ≠ 0 ∧
    ((Neuron.step 1 neuronC1A 310 ⟨1, 1, 1, 1⟩ 1).segments.getD 1
        default).membrane_potential ≠
      ((Neuron.step 1 neuronC1B 310 ⟨1, 1, 1, 1⟩ 1).segments.getD 1
        default).membrane_potential :=
  ⟨one_ne_zero, C1_junction_order_dependence 1 310 ⟨1, 1, 1, 1⟩ one_ne_zero⟩

end NbSim

end
